import Mathlib

/-!
Verification of the BSDF streaming decoder (`src/parser.rs`, `src/lib.rs`,
`src/consts.rs`) against its natural-language specification.

The byte source (`Peekable<Bytes<Box<dyn Read>>>` in the Rust code) is
modelled as a list of elements, each of which is either a byte or an I/O
error, mirroring the `Option<Result<u8, io::Error>>` interface that the
parser consumes strictly sequentially.  Bytes are `Nat` (always < 256 for
real inputs; theorems add that bound where the value interpretation of a
byte matters).  Machine integers are modelled as `Nat`/`Int` with explicit
two's-complement conversion.  The optional cargo features `md5`, `zlib` and
`bz2` — whose enabled branches call external crates — are modelled as a
`Features` record of optional functions: `none` is the feature-disabled
build (whose behaviour is fully given in `parser.rs`), `some f` an enabled
build with the external codec abstracted as `f`.
-/

namespace Bsdf

/-- An I/O error from the underlying reader: `std::io::Error` exposes a
kind (modelled as a `Nat` code) and a message. -/
structure IOError where
  kind : Nat
  msg : String
deriving DecidableEq

/-- `InvalidExtension` from `src/lib.rs` lines 25–32. -/
inductive InvalidExtension where
  | ZlibNotCompiled
  | Bz2NotCompiled
  | InvalidCompressionSetting (b : Nat)
deriving DecidableEq

/-- `Error` from `src/lib.rs` lines 41–58. -/
inductive Error where
  | MissingData
  | InvalidHeader
  | Eof
  | InvalidSize
  | InvalidUtf8
  | InvalidBlobHash
  | InvalidExtension (e : InvalidExtension)
  | Reader (e : IOError)
deriving DecidableEq

/-- The derived `PartialEq` on `InvalidExtension` (structural equality,
including the payload byte of `InvalidCompressionSetting`). -/
def invalidExtensionEq : InvalidExtension → InvalidExtension → Bool
  | .ZlibNotCompiled, .ZlibNotCompiled => true
  | .Bz2NotCompiled, .Bz2NotCompiled => true
  | .InvalidCompressionSetting a, .InvalidCompressionSetting b => a == b
  | _, _ => false

/-- The hand-written `impl PartialEq for Error` from `src/lib.rs` lines
60–75: `Reader` errors compare by `kind()` only, `InvalidExtension` by the
inner value, everything else by variant. -/
def errorEq : Error → Error → Bool
  | .MissingData, .MissingData => true
  | .InvalidHeader, .InvalidHeader => true
  | .Eof, .Eof => true
  | .InvalidSize, .InvalidSize => true
  | .InvalidUtf8, .InvalidUtf8 => true
  | .InvalidBlobHash, .InvalidBlobHash => true
  | .InvalidExtension e, .InvalidExtension f => invalidExtensionEq e f
  | .Reader e, .Reader f => e.kind == f.kind
  | _, _ => false

/-! Constants from `src/consts.rs`.  `MAGIC` is `consts::PREFIX`, the four
bytes of `"BSDF"`. -/

def MAGIC : List Nat := [66, 83, 68, 70]

def CHECKSUM_SET : Nat := 255

def LARGE_SIZE : Nat := 253

def SMALL_SIZE_CUTOFF : Nat := 251

def COMPRESSION_NOT_SET : Nat := 0

def COMPRESSION_ZLIB : Nat := 1

def COMPRESSION_BZ2 : Nat := 2

/-- The decoded value tree, `Item` from `src/lib.rs` lines 11–22.  A Rust
`String` is modelled as its list of unicode code points, a map as an
association list from decoded keys to items (`HashMap` insertion order is
not semantically meaningful), and the float variants carry the raw
little-endian bit pattern (the decoder only reinterprets bytes; the IEEE
reading of the bits is outside the decoding logic). -/
inductive Item where
  | Bool (b : Bool)
  | Void
  | Int16 (v : Int)
  | Int64 (v : Int)
  | F32 (bits : Nat)
  | F64 (bits : Nat)
  | String (s : List Nat)
  | Blob (data : List Nat)
  | List (l : List Item)
  | Map (m : List (List Nat × Item))

abbrev Map := List (List Nat × Item)

/-- `HashMap::insert`: overwrite the value of an existing key, otherwise
add the binding. -/
def mapInsert : Map → List Nat → Item → Map
  | [], k, v => [(k, v)]
  | (k₀, v₀) :: rest, k, v =>
    if k = k₀ then (k, v) :: rest else (k₀, v₀) :: mapInsert rest k v

/-- The sequential byte source: each element is a byte or a reader error. -/
abbrev RStream := List (Except IOError Nat)

/-- The optional cargo features of the build.  `md5` is the digest function
of the `md5` crate when the `md5` feature is compiled in; `zlib`/`bz2` are
the decompressors (payload and `data_size` capacity hint to result or
error) when those features are compiled in. -/
structure Features where
  md5 : Option (List Nat → List Nat)
  zlib : Option (List Nat → Nat → Except Error (List Nat))
  bz2 : Option (List Nat → Nat → Except Error (List Nat))

/-- A build with none of the optional features compiled in. -/
def noExtensions : Features := ⟨none, none, none⟩

/-- Little-endian value of a byte list: `from_le_bytes`. -/
def leValue : List Nat → Nat
  | [] => 0
  | b :: rest => b + 256 * leValue rest

/-- Two's-complement reading of an unsigned `w`-bit value. -/
def toSigned (w : Nat) (n : Nat) : Int :=
  if n < 2 ^ (w - 1) then (n : Int) else (n : Int) - 2 ^ w

/-- `Parser::next` (`src/parser.rs` lines 71–74): one element from the
reader; `None` is `Eof`, an I/O error becomes `Error::Reader`. -/
def pnext : RStream → Except Error (Nat × RStream)
  | [] => .error .Eof
  | .error e :: _ => .error (.Reader e)
  | .ok b :: s => .ok (b, s)

/-- `self.reader.by_ref().take(n).collect::<Result<Vec<u8>, _>>()`: read up
to `n` elements, stopping early at end of stream (shorter result, no
error) or at the first reader error (which short-circuits `collect`). -/
def takeCollect : Nat → RStream → Except IOError (List Nat × RStream)
  | 0, s => .ok ([], s)
  | _ + 1, [] => .ok ([], [])
  | _ + 1, .error e :: _ => .error e
  | n + 1, .ok b :: s =>
    match takeCollect n s with
    | .error e => .error e
    | .ok (bs, s) => .ok (b :: bs, s)

/-- `Parser::skip_bytes` (`src/parser.rs` lines 255–257):
`take(n).for_each(|_| {})` — consume up to `n` elements and discard them,
reader errors included; no error is ever reported. -/
def skip_bytes (n : Nat) (s : RStream) : RStream := s.drop n

/-- `Parser::parse_header` (`src/parser.rs` lines 28–43).  Returns the
recorded version (the Rust code stores it in `self.version`). -/
def parse_header (s : RStream) : Except Error (Nat × RStream) :=
  match takeCollect 6 s with
  | .error e => .error (.Reader e)
  | .ok (buffer, s) =>
    if buffer.length ≠ 6 then .error .MissingData
    else if buffer.take 4 ≠ MAGIC then .error .InvalidHeader
    else .ok (leValue (buffer.drop 4), s)

/-- `Parser::parse_int16`: two bytes, little endian, signed. -/
def parse_int16 (s : RStream) : Except Error (Int × RStream) :=
  match pnext s with
  | .error e => .error e
  | .ok (b₁, s) =>
    match pnext s with
    | .error e => .error e
    | .ok (b₂, s) => .ok (toSigned 16 (leValue [b₁, b₂]), s)

/-- Eight consecutive `Parser::next` calls, as in `parse_int64`,
`parse_usize` and `parse_f64`. -/
def takeCollect8 (s : RStream) : Except Error (List Nat × RStream) :=
  match pnext s with
  | .error e => .error e
  | .ok (b₁, s) =>
  match pnext s with
  | .error e => .error e
  | .ok (b₂, s) =>
  match pnext s with
  | .error e => .error e
  | .ok (b₃, s) =>
  match pnext s with
  | .error e => .error e
  | .ok (b₄, s) =>
  match pnext s with
  | .error e => .error e
  | .ok (b₅, s) =>
  match pnext s with
  | .error e => .error e
  | .ok (b₆, s) =>
  match pnext s with
  | .error e => .error e
  | .ok (b₇, s) =>
  match pnext s with
  | .error e => .error e
  | .ok (b₈, s) => .ok ([b₁, b₂, b₃, b₄, b₅, b₆, b₇, b₈], s)

/-- `Parser::parse_int64`: eight bytes, little endian, signed. -/
def parse_int64 (s : RStream) : Except Error (Int × RStream) :=
  match takeCollect8 s with
  | .error e => .error e
  | .ok (bs, s) => .ok (toSigned 64 (leValue bs), s)

/-- `Parser::parse_usize` (`src/parser.rs` lines 98–111): eight bytes,
little-endian unsigned. -/
def parse_usize (s : RStream) : Except Error (Nat × RStream) :=
  match takeCollect8 s with
  | .error e => .error e
  | .ok (bs, s) => .ok (leValue bs, s)

/-- `Parser::parse_f32`: four bytes; the value is the raw bit pattern. -/
def parse_f32 (s : RStream) : Except Error (Nat × RStream) :=
  match pnext s with
  | .error e => .error e
  | .ok (b₁, s) =>
  match pnext s with
  | .error e => .error e
  | .ok (b₂, s) =>
  match pnext s with
  | .error e => .error e
  | .ok (b₃, s) =>
  match pnext s with
  | .error e => .error e
  | .ok (b₄, s) => .ok (leValue [b₁, b₂, b₃, b₄], s)

/-- `Parser::parse_f64`: eight bytes; the value is the raw bit pattern. -/
def parse_f64 (s : RStream) : Except Error (Nat × RStream) :=
  match takeCollect8 s with
  | .error e => .error e
  | .ok (bs, s) => .ok (leValue bs, s)

/-- `Parser::parse_size` (`src/parser.rs` lines 144–152): one byte `b`;
`253` switches to the 8-byte extended form, `251..=255` (the remaining
reserved band) is `InvalidSize`, anything else is the inline size. -/
def parse_size (s : RStream) : Except Error (Nat × RStream) :=
  match pnext s with
  | .error e => .error e
  | .ok (first_byte, s) =>
    if first_byte = LARGE_SIZE then parse_usize s
    else if SMALL_SIZE_CUTOFF ≤ first_byte then .error .InvalidSize
    else .ok (first_byte, s)

/-- Whether `b` is a UTF-8 continuation byte (`0x80..=0xBF`). -/
def isCont (b : Nat) : Bool := 128 ≤ b && b < 192

/-- Strict UTF-8 decoding, as validated by Rust's `String::from_utf8`:
rejects stray continuation bytes, overlong forms, surrogates and code
points above `U+10FFFF`; yields the code points on success. -/
def utf8Decode : List Nat → Option (List Nat)
  | [] => some []
  | b :: rest =>
    if b < 128 then (utf8Decode rest).map (fun cs => b :: cs)
    else if b < 194 then none
    else if b < 224 then
      match rest with
      | [] => none
      | b₂ :: rest₂ =>
        if isCont b₂ then
          (utf8Decode rest₂).map (fun cs => ((b - 192) * 64 + (b₂ - 128)) :: cs)
        else none
    else if b < 240 then
      match rest with
      | b₂ :: b₃ :: rest₃ =>
        if (if b = 224 then decide (160 ≤ b₂) && decide (b₂ < 192)
            else if b = 237 then decide (128 ≤ b₂) && decide (b₂ < 160)
            else isCont b₂) && isCont b₃ then
          (utf8Decode rest₃).map
            (fun cs => ((b - 224) * 4096 + (b₂ - 128) * 64 + (b₃ - 128)) :: cs)
        else none
      | _ => none
    else if b < 245 then
      match rest with
      | b₂ :: b₃ :: b₄ :: rest₄ =>
        if (if b = 240 then decide (144 ≤ b₂) && decide (b₂ < 192)
            else if b = 244 then decide (128 ≤ b₂) && decide (b₂ < 144)
            else isCont b₂) && isCont b₃ && isCont b₄ then
          (utf8Decode rest₄).map
            (fun cs =>
              ((b - 240) * 262144 + (b₂ - 128) * 4096 + (b₃ - 128) * 64 +
                (b₄ - 128)) :: cs)
        else none
      | _ => none
    else none

/-- `Parser::parse_string` (`src/parser.rs` lines 137–142): a size, then
`take(length).collect()` (which stops early at end of stream), then UTF-8
validation, `InvalidUtf8` on failure. -/
def parse_string (s : RStream) : Except Error (List Nat × RStream) :=
  match parse_size s with
  | .error e => .error e
  | .ok (length, s) =>
    match takeCollect length s with
    | .error e => .error (.Reader e)
    | .ok (text_data, s) =>
      match utf8Decode text_data with
      | none => .error .InvalidUtf8
      | some cs => .ok (cs, s)

/-- `Parser::check_hash` (`src/parser.rs` lines 219–227): with the `md5`
feature, compare the digest of `data` with the stored hash; without it,
unconditionally `true`. -/
def check_hash (ft : Features) (data hash : List Nat) : Bool :=
  match ft.md5 with
  | some digest => digest data == hash
  | none => true

/-- `Parser::decompress_zlib` (`src/parser.rs` lines 229–240): with the
`zlib` feature, run the codec; without it, `InvalidExtension
ZlibNotCompiled`. -/
def decompress_zlib (ft : Features) (data : List Nat) (size : Nat) :
    Except Error (List Nat) :=
  match ft.zlib with
  | some f => f data size
  | none => .error (.InvalidExtension .ZlibNotCompiled)

/-- `Parser::decompress_bz2` (`src/parser.rs` lines 242–253). -/
def decompress_bz2 (ft : Features) (data : List Nat) (size : Nat) :
    Except Error (List Nat) :=
  match ft.bz2 with
  | some f => f data size
  | none => .error (.InvalidExtension .Bz2NotCompiled)

/-- `Parser::parse_blob` (`src/parser.rs` lines 178–217), step for step:
three sizes, compression byte, checksum byte, optional 16-byte hash,
alignment byte and padding skip, `used_size` payload bytes, trailing skip
of `allocated_size.saturating_sub(used_size)` (Nat subtraction), hash
check, compression dispatch. -/
def parse_blob (ft : Features) (s : RStream) :
    Except Error (List Nat × RStream) :=
  match parse_size s with
  | .error e => .error e
  | .ok (allocated_size, s) =>
  match parse_size s with
  | .error e => .error e
  | .ok (used_size, s) =>
  match parse_size s with
  | .error e => .error e
  | .ok (data_size, s) =>
  match pnext s with
  | .error e => .error e
  | .ok (compressed_setting, s) =>
  match pnext s with
  | .error e => .error e
  | .ok (checksum_setting, s) =>
  match (if checksum_setting = CHECKSUM_SET then
          match takeCollect 16 s with
          | .error e => Except.error (Error.Reader e)
          | .ok (hash, s) => Except.ok (hash, s)
         else Except.ok ([], s)) with
  | .error e => .error e
  | .ok (md5_hash, s) =>
  match pnext s with
  | .error e => .error e
  | .ok (byte_alignment_indicator, s) =>
  let s := skip_bytes byte_alignment_indicator s
  match takeCollect used_size s with
  | .error e => .error (.Reader e)
  | .ok (data, s) =>
  let s := skip_bytes (allocated_size - used_size) s
  if !check_hash ft data md5_hash then .error .InvalidBlobHash
  else if compressed_setting = COMPRESSION_NOT_SET then .ok (data, s)
  else if compressed_setting = COMPRESSION_ZLIB then
    match decompress_zlib ft data data_size with
    | .error e => .error e
    | .ok data₂ => .ok (data₂, s)
  else if compressed_setting = COMPRESSION_BZ2 then
    match decompress_bz2 ft data data_size with
    | .error e => .error e
    | .ok data₂ => .ok (data₂, s)
  else .error (.InvalidExtension (.InvalidCompressionSetting compressed_setting))

/-- The `for _ in 0..length` body of `Parser::parse_list` (`src/parser.rs`
lines 171–173): each element is parsed by `p` (the recursive item parser);
`Ok(None)` from `p` becomes `MissingData` via `ok_or_else`. -/
def parse_list_loop (p : RStream → Except Error (Option Item × RStream)) :
    Nat → RStream → Except Error (List Item × RStream)
  | 0, s => .ok ([], s)
  | n + 1, s =>
    match p s with
    | .error e => .error e
    | .ok (none, _) => .error .MissingData
    | .ok (some item, s) =>
      match parse_list_loop p n s with
      | .error e => .error e
      | .ok (l, s) => .ok (item :: l, s)

/-- `Parser::parse_list` (`src/parser.rs` lines 167–176). -/
def parse_list (p : RStream → Except Error (Option Item × RStream))
    (s : RStream) : Except Error (List Item × RStream) :=
  match parse_size s with
  | .error e => .error e
  | .ok (length, s) => parse_list_loop p length s

/-- The `for _ in 0..length` body of `Parser::parse_map` (`src/parser.rs`
lines 158–162): a string key, then a value via `p`, `Ok(None)` from `p`
becoming `MissingData`, then `map.insert(key, item)`. -/
def parse_map_loop (p : RStream → Except Error (Option Item × RStream)) :
    Nat → Map → RStream → Except Error (Map × RStream)
  | 0, map, s => .ok (map, s)
  | n + 1, map, s =>
    match parse_string s with
    | .error e => .error e
    | .ok (key, s) =>
      match p s with
      | .error e => .error e
      | .ok (none, _) => .error .MissingData
      | .ok (some item, s) => parse_map_loop p n (mapInsert map key item) s

/-- `Parser::parse_map` (`src/parser.rs` lines 154–165). -/
def parse_map (p : RStream → Except Error (Option Item × RStream))
    (s : RStream) : Except Error (Map × RStream) :=
  match parse_size s with
  | .error e => .error e
  | .ok (length, s) => parse_map_loop p length [] s

/-- `Parser::parse_item` (`src/parser.rs` lines 45–68): read the tag byte
(`None` from the reader gives `Ok(None)`, a reader error propagates),
dispatch on it, and yield `Ok(None)` for an unrecognized tag.  Recursion
through containers is driven by a fuel argument (the Rust recursion is
bounded by the finite stream); the out-of-fuel case is unreachable for
any fuel exceeding the nesting depth. -/
def parse_item (ft : Features) : Nat → RStream → Except Error (Option Item × RStream)
  | 0, _ => .error .Eof
  | fuel + 1, s =>
    match s with
    | [] => .ok (none, [])
    | .error e :: _ => .error (.Reader e)
    | .ok next_byte :: s =>
      if next_byte = 118 then .ok (some .Void, s)
      else if next_byte = 110 then .ok (some (.Bool false), s)
      else if next_byte = 121 then .ok (some (.Bool true), s)
      else if next_byte = 104 then
        match parse_int16 s with
        | .error e => .error e
        | .ok (v, s) => .ok (some (.Int16 v), s)
      else if next_byte = 105 then
        match parse_int64 s with
        | .error e => .error e
        | .ok (v, s) => .ok (some (.Int64 v), s)
      else if next_byte = 102 then
        match parse_f32 s with
        | .error e => .error e
        | .ok (v, s) => .ok (some (.F32 v), s)
      else if next_byte = 100 then
        match parse_f64 s with
        | .error e => .error e
        | .ok (v, s) => .ok (some (.F64 v), s)
      else if next_byte = 115 then
        match parse_string s with
        | .error e => .error e
        | .ok (v, s) => .ok (some (.String v), s)
      else if next_byte = 108 then
        match parse_list (parse_item ft fuel) s with
        | .error e => .error e
        | .ok (v, s) => .ok (some (.List v), s)
      else if next_byte = 109 then
        match parse_map (parse_item ft fuel) s with
        | .error e => .error e
        | .ok (v, s) => .ok (some (.Map v), s)
      else if next_byte = 98 then
        match parse_blob ft s with
        | .error e => .error e
        | .ok (v, s) => .ok (some (.Blob v), s)
      else .ok (none, s)

/-- `Parser::parse` (`src/parser.rs` lines 23–26): `parse_header` followed
by `parse_item`, on every call. -/
def parse (ft : Features) (fuel : Nat) (s : RStream) :
    Except Error (Option Item × RStream) :=
  match parse_header s with
  | .error e => .error e
  | .ok (_, s) => parse_item ft fuel s

/-- The sub-kind (variant) of an `InvalidExtension` value, disregarding
the payload byte of `InvalidCompressionSetting`; this follows the spec's
words on error equality, for comparison with the code's `errorEq`. -/
def invalidExtensionSubKind : InvalidExtension → Nat
  | .ZlibNotCompiled => 0
  | .Bz2NotCompiled => 1
  | .InvalidCompressionSetting _ => 2

/-! Helper lemmas about the reading primitives. -/

/-- An error result of `pnext` is `Eof` or a `Reader` error. -/
theorem pnext_error_shape (s : RStream) (e : Error) (h : pnext s = .error e) :
    e = .Eof ∨ ∃ io, e = .Reader io := by
  match s with
  | [] => simp [pnext] at h; exact .inl h.symm
  | .error io :: t => simp [pnext] at h; exact .inr ⟨io, h.symm⟩
  | .ok b :: t => simp [pnext] at h

/-- An error result of `takeCollect8` is `Eof` or a `Reader` error. -/
theorem takeCollect8_error_shape (s : RStream) (e : Error)
    (h : takeCollect8 s = .error e) : e = .Eof ∨ ∃ io, e = .Reader io := by
  unfold takeCollect8 at h
  repeat' split at h
  all_goals
    first
    | (injection h with h₂; subst h₂; exact pnext_error_shape _ _ (by assumption))
    | exact Except.noConfusion h

/-- The extended-size read never produces `InvalidSize` itself. -/
theorem parse_usize_ne_invalidSize (s : RStream) :
    parse_usize s ≠ Except.error Error.InvalidSize := by
  intro h
  unfold parse_usize at h
  split at h
  · next e heq =>
      injection h with h₂
      subst h₂
      rcases takeCollect8_error_shape _ _ heq with h₃ | ⟨io, h₃⟩ <;> cases h₃
  · exact Except.noConfusion h

/-- On an error-free stream, a counted collect yields the first `n` bytes
and otherwise everything that is available. -/
theorem takeCollect_all_ok (n : Nat) (bs : List Nat) :
    takeCollect n (bs.map Except.ok) =
      .ok (bs.take n, (bs.drop n).map Except.ok) := by
  induction bs generalizing n with
  | nil => cases n <;> simp [takeCollect]
  | cons b t ih => cases n with
    | zero => simp [takeCollect]
    | succ m => simp [takeCollect, ih m]

/-- A counted collect over exactly as many available bytes as requested
consumes them and leaves the rest of the stream. -/
theorem takeCollect_exact (bs : List Nat) (s : RStream) :
    takeCollect bs.length (bs.map Except.ok ++ s) = .ok (bs, s) := by
  induction bs with
  | nil => simp [takeCollect]
  | cons b t ih => simp [takeCollect, ih]

/-- A first size byte below 251 is an inline size. -/
theorem parse_size_inline (b : Nat) (s : RStream) (h : b < 251) :
    parse_size (Except.ok b :: s) = .ok (b, s) := by
  have h₁ : b ≠ LARGE_SIZE := by unfold LARGE_SIZE; omega
  have h₂ : ¬ SMALL_SIZE_CUTOFF ≤ b := by unfold SMALL_SIZE_CUTOFF; omega
  simp [parse_size, pnext, h₁, h₂]

/-! The claims. -/

/-- C1: in a build with the `md5` feature, a blob whose checksum byte is
not `0xFF` (checksum absent) always fails with `InvalidBlobHash`, contrary
to the claim that checksum verification trivially passes for it: the code
stores an empty hash for such a blob and then unconditionally compares the
MD5 digest of the payload (never empty) with that empty hash.  Stated for
any digest function with nonempty output on the empty payload, as MD5's
fixed 16-byte digest is. -/
theorem claim_C1 (digest : List Nat → List Nat) (h : digest [] ≠ []) :
    parse_blob ⟨some digest, none, none⟩
        ([Except.ok 0, Except.ok 0, Except.ok 0, Except.ok 0, Except.ok 0,
          Except.ok 0] : RStream) = .error .InvalidBlobHash := by
  simp [parse_blob, parse_size, parse_usize, pnext, LARGE_SIZE,
    SMALL_SIZE_CUTOFF, CHECKSUM_SET, skip_bytes, takeCollect, check_hash, h]

/-- Witness for C1 with a concrete 16-byte digest function. -/
theorem claim_C1_witness :
    parse_blob ⟨some fun _ => List.replicate 16 0, none, none⟩
        ([Except.ok 0, Except.ok 0, Except.ok 0, Except.ok 0, Except.ok 0,
          Except.ok 0] : RStream) = .error .InvalidBlobHash :=
  claim_C1 (fun _ => List.replicate 16 0) (by simp)

/-- C2: an exhausted stream or an unrecognized tag byte both make the
value parser yield no value (`Ok(None)`) rather than an error; and inside
a list or for the value of a map pair, such a no-value outcome makes the
container parse fail with `MissingData`. -/
theorem claim_C2 :
    (∀ ft fuel, parse_item ft (fuel + 1) [] = .ok (none, [])) ∧
    (∀ ft fuel b (s : RStream),
      b ∉ ([118, 110, 121, 104, 105, 102, 100, 115, 108, 109, 98] : List Nat) →
      parse_item ft (fuel + 1) (Except.ok b :: s) = .ok (none, s)) ∧
    (∀ ft fuel n (s s' : RStream), parse_item ft fuel s = .ok (none, s') →
      parse_list_loop (parse_item ft fuel) (n + 1) s = .error .MissingData) ∧
    (∀ ft fuel n (m : Map) (s : RStream) key (s₁ s₂ : RStream),
      parse_string s = .ok (key, s₁) →
      parse_item ft fuel s₁ = .ok (none, s₂) →
      parse_map_loop (parse_item ft fuel) (n + 1) m s = .error .MissingData) := by
  refine ⟨fun ft fuel => rfl, ?_, ?_, ?_⟩
  · intro ft fuel b s h
    simp only [List.mem_cons, List.not_mem_nil, or_false, not_or] at h
    obtain ⟨h₁, h₂, h₃, h₄, h₅, h₆, h₇, h₈, h₉, h₁₀, h₁₁⟩ := h
    simp [parse_item, h₁, h₂, h₃, h₄, h₅, h₆, h₇, h₈, h₉, h₁₀, h₁₁]
  · intro ft fuel n s s' h
    simp [parse_list_loop, h]
  · intro ft fuel n m s key s₁ s₂ h₁ h₂
    simp [parse_map_loop, h₁, h₂]

/-- Witness for C2: tag byte 122 (`'z'`) yields no value; a list of
declared length 1 over an exhausted stream fails with `MissingData`; a map
pair whose key parses but whose value position is exhausted fails with
`MissingData`. -/
theorem claim_C2_witness :
    parse_item noExtensions 1 ([Except.ok 122] : RStream) = .ok (none, []) ∧
    parse_list_loop (parse_item noExtensions 1) 1 [] = .error .MissingData ∧
    parse_map_loop (parse_item noExtensions 1) 1 []
      ([Except.ok 0] : RStream) = .error .MissingData :=
  ⟨claim_C2.2.1 noExtensions 0 122 [] (by decide),
   claim_C2.2.2.1 noExtensions 1 0 [] [] rfl,
   claim_C2.2.2.2 noExtensions 1 0 [] [Except.ok 0] [] [] [] rfl rfl⟩

/-- C3: a first size byte in 0–250 is the inline size itself (250
included); 253 switches to the following 8 bytes read as a little-endian
unsigned 64-bit integer; and `InvalidSize` is produced exactly for the
first bytes 251, 252, 254 and 255. -/
theorem claim_C3 :
    (∀ b (s : RStream), b ≤ 250 → parse_size (Except.ok b :: s) = .ok (b, s)) ∧
    (∀ b₁ b₂ b₃ b₄ b₅ b₆ b₇ b₈ (s : RStream),
      parse_size (Except.ok 253 :: Except.ok b₁ :: Except.ok b₂ ::
          Except.ok b₃ :: Except.ok b₄ :: Except.ok b₅ :: Except.ok b₆ ::
          Except.ok b₇ :: Except.ok b₈ :: s) =
        .ok (b₁ + 256 * b₂ + 65536 * b₃ + 16777216 * b₄ + 4294967296 * b₅ +
          1099511627776 * b₆ + 281474976710656 * b₇ +
          72057594037927936 * b₈, s)) ∧
    (∀ b (s : RStream), b < 256 →
      (parse_size (Except.ok b :: s) = .error .InvalidSize ↔
        b = 251 ∨ b = 252 ∨ b = 254 ∨ b = 255)) := by
  refine ⟨fun b s hb => parse_size_inline b s (by omega), ?_, ?_⟩
  · intro b₁ b₂ b₃ b₄ b₅ b₆ b₇ b₈ s
    simp [parse_size, parse_usize, takeCollect8, pnext, leValue, LARGE_SIZE]
    ring
  · intro b s hb
    constructor
    · intro h
      by_contra hc
      push_neg at hc
      obtain ⟨h₁, h₂, h₃, h₄⟩ := hc
      rcases Nat.lt_or_ge b 251 with hlt | hge
      · rw [parse_size_inline b s hlt] at h
        exact Except.noConfusion h
      · have hb253 : b = 253 := by omega
        subst hb253
        have heq : parse_size (Except.ok 253 :: s) = parse_usize s := by
          simp [parse_size, pnext, LARGE_SIZE]
        rw [heq] at h
        exact parse_usize_ne_invalidSize s h
    · rintro (rfl | rfl | rfl | rfl) <;> rfl

/-- Witness for C3 at concrete inputs: 250 is a valid inline size, a
253-prefixed extended size with following bytes 9, 1, 0, … decodes to 265,
and 251 and 254 give `InvalidSize`. -/
theorem claim_C3_witness :
    parse_size ([Except.ok 250] : RStream) = .ok (250, []) ∧
    parse_size (([253, 9, 1, 0, 0, 0, 0, 0, 0].map Except.ok : RStream)) =
      .ok (265, []) ∧
    parse_size ([Except.ok 251] : RStream) = .error .InvalidSize ∧
    parse_size ([Except.ok 254] : RStream) = .error .InvalidSize :=
  ⟨claim_C3.1 250 [] (by omega),
   by simpa using claim_C3.2.1 9 1 0 0 0 0 0 0 [],
   (claim_C3.2.2 251 [] (by omega)).mpr (by simp),
   (claim_C3.2.2 254 [] (by omega)).mpr (by simp)⟩

/-- C4: evaluation at the failing inputs.  A string with declared length 5
over a stream holding only the two bytes 97, 98 decodes successfully to
the shorter string "ab"; a blob with `used_size` 2 over a stream holding
one payload byte decodes successfully to the shorter payload `[1]`.  The
claim says both parses must fail rather than produce a short result, and
the header validator shows the intended truncation check
(`buffer.len() != 6`) that these paths lack. -/
theorem claim_C4 :
    parse_string ([Except.ok 5, Except.ok 97, Except.ok 98] : RStream) =
      .ok ([97, 98], []) ∧
    parse_blob noExtensions
        ([Except.ok 0, Except.ok 2, Except.ok 0, Except.ok 0, Except.ok 0,
          Except.ok 0, Except.ok 1] : RStream) = .ok ([1], []) :=
  ⟨rfl, rfl⟩

/-- C5 counterexample: a reader error sitting in the alignment-padding
region of a blob (alignment byte 1, then an I/O error element) is
swallowed by `skip_bytes` and the blob parse succeeds, so not every
underlying byte-source error is surfaced to the caller. -/
theorem claim_C5_counterexample :
    parse_blob noExtensions
        ([Except.ok 0, Except.ok 0, Except.ok 0, Except.ok 0, Except.ok 0,
          Except.ok 1, Except.error ⟨7, "boom"⟩] : RStream) = .ok ([], []) :=
  rfl

/-- C5 as amended: a reader error is surfaced immediately (as
`Error::Reader`, with no partial value) wherever the parser reads bytes —
at a tag read, at a fixed-width read via `next`, and at a counted
`take(..).collect()` read — but errors encountered while skipping
alignment or trailing padding bytes in the blob sub-decoder are silently
discarded: `skip_bytes` consumes them without reporting, as the
trailing-padding evaluation in the last conjunct shows. -/
theorem claim_C5 :
    (∀ ft fuel e (s : RStream),
      parse_item ft (fuel + 1) (Except.error e :: s) = .error (.Reader e)) ∧
    (∀ e (s : RStream), pnext (Except.error e :: s) = .error (.Reader e)) ∧
    (∀ n e (s : RStream), takeCollect (n + 1) (Except.error e :: s) = .error e) ∧
    (∀ n e (s : RStream), skip_bytes (n + 1) (Except.error e :: s) = s.drop n) ∧
    parse_blob noExtensions
        ([Except.ok 2, Except.ok 0, Except.ok 0, Except.ok 0, Except.ok 0,
          Except.ok 0, Except.error ⟨3, "lost"⟩, Except.ok 5] : RStream) =
      .ok ([], []) := by
  refine ⟨fun ft fuel e s => rfl, fun e s => rfl, fun n e s => rfl,
    fun n e s => rfl, rfl⟩

/-- C6 counterexample: a first `parse` call on a complete document
(header, version bytes 4 and 2, one void value) consumes the whole stream
and succeeds, but a second call — made when the stream is at clean
end-of-stream — fails with `MissingData` instead of returning no value,
because `parse` re-runs header validation on every call, not only on its
first use. -/
theorem claim_C6_counterexample :
    parse noExtensions 1
        ([Except.ok 66, Except.ok 83, Except.ok 68, Except.ok 70,
          Except.ok 4, Except.ok 2, Except.ok 118] : RStream) =
      .ok (some .Void, []) ∧
    parse noExtensions 1 ([] : RStream) = .error .MissingData :=
  ⟨rfl, rfl⟩

/-- C6 as amended: `parse` performs header validation on every call (each
call consumes a fresh 6-byte header), then decodes at most one top-level
value; a call whose stream ends cleanly right after a valid header returns
no value, and a call at clean end-of-stream without a further header fails
with `MissingData`. -/
theorem claim_C6 :
    (∀ ft fuel v₁ v₂ (rest : RStream),
      parse ft fuel ([Except.ok 66, Except.ok 83, Except.ok 68, Except.ok 70,
          Except.ok v₁, Except.ok v₂] ++ rest) = parse_item ft fuel rest) ∧
    (∀ ft fuel v₁ v₂,
      parse ft (fuel + 1) ([Except.ok 66, Except.ok 83, Except.ok 68,
          Except.ok 70, Except.ok v₁, Except.ok v₂] : RStream) =
        .ok (none, [])) ∧
    (∀ ft fuel, parse ft fuel ([] : RStream) = .error .MissingData) := by
  refine ⟨?_, ?_, ?_⟩
  · intro ft fuel v₁ v₂ rest
    simp [parse, parse_header, takeCollect, MAGIC]
  · intro ft fuel v₁ v₂
    simp [parse, parse_header, takeCollect, MAGIC, parse_item]
  · intro ft fuel
    rfl

/-- C7: after the hash check, the compression byte is dispatched: 0 passes
the stored bytes through unchanged; 1 in a build without the `zlib`
feature fails with `InvalidExtension ZlibNotCompiled`; 2 in a build
without the `bz2` feature fails with `InvalidExtension Bz2NotCompiled`;
any other byte fails with `InvalidExtension (InvalidCompressionSetting b)`
carrying the offending byte. -/
theorem claim_C7 :
    (∀ (ft : Features) n (payload : List Nat) (s : RStream), ft.md5 = none →
      payload.length = n → n ≤ 250 →
      parse_blob ft (Except.ok n :: Except.ok n :: Except.ok n :: Except.ok 0 ::
          Except.ok 0 :: Except.ok 0 :: (payload.map Except.ok ++ s)) =
        .ok (payload, s)) ∧
    (∀ ft : Features, ft.md5 = none → ft.zlib = none →
      parse_blob ft ([Except.ok 0, Except.ok 0, Except.ok 0, Except.ok 1,
          Except.ok 0, Except.ok 0] : RStream) =
        .error (.InvalidExtension .ZlibNotCompiled)) ∧
    (∀ ft : Features, ft.md5 = none → ft.bz2 = none →
      parse_blob ft ([Except.ok 0, Except.ok 0, Except.ok 0, Except.ok 2,
          Except.ok 0, Except.ok 0] : RStream) =
        .error (.InvalidExtension .Bz2NotCompiled)) ∧
    (∀ (ft : Features) c, ft.md5 = none → c ≠ 0 → c ≠ 1 → c ≠ 2 →
      parse_blob ft ([Except.ok 0, Except.ok 0, Except.ok 0, Except.ok c,
          Except.ok 0, Except.ok 0] : RStream) =
        .error (.InvalidExtension (.InvalidCompressionSetting c))) := by
  refine ⟨?_, ?_, ?_, ?_⟩
  · intro ft n payload s hmd5 hlen hn
    subst hlen
    have hlt : payload.length < 251 := by omega
    simp [parse_blob, parse_size_inline, hlt, pnext, CHECKSUM_SET,
      skip_bytes, takeCollect_exact, check_hash, hmd5, COMPRESSION_NOT_SET]
  · intro ft hmd5 hz
    simp [parse_blob, parse_size, pnext, LARGE_SIZE, SMALL_SIZE_CUTOFF,
      CHECKSUM_SET, skip_bytes, takeCollect, check_hash, hmd5,
      COMPRESSION_NOT_SET, COMPRESSION_ZLIB, decompress_zlib, hz]
  · intro ft hmd5 hb
    simp [parse_blob, parse_size, pnext, LARGE_SIZE, SMALL_SIZE_CUTOFF,
      CHECKSUM_SET, skip_bytes, takeCollect, check_hash, hmd5,
      COMPRESSION_NOT_SET, COMPRESSION_ZLIB, COMPRESSION_BZ2,
      decompress_bz2, hb]
  · intro ft c hmd5 h₀ h₁ h₂
    simp [parse_blob, parse_size, pnext, LARGE_SIZE, SMALL_SIZE_CUTOFF,
      CHECKSUM_SET, skip_bytes, takeCollect, check_hash, hmd5,
      COMPRESSION_NOT_SET, COMPRESSION_ZLIB, COMPRESSION_BZ2, h₀, h₁, h₂]

/-- Witness for C7: a two-byte uncompressed blob passes its payload
through; compression bytes 1 and 2 fail as codec-unavailable in the
feature-free build; compression byte 99 fails carrying 99. -/
theorem claim_C7_witness :
    parse_blob noExtensions (([2, 2, 2, 0, 0, 0, 9, 8].map Except.ok :
        RStream)) = .ok ([9, 8], []) ∧
    parse_blob noExtensions ([Except.ok 0, Except.ok 0, Except.ok 0,
        Except.ok 1, Except.ok 0, Except.ok 0] : RStream) =
      .error (.InvalidExtension .ZlibNotCompiled) ∧
    parse_blob noExtensions ([Except.ok 0, Except.ok 0, Except.ok 0,
        Except.ok 2, Except.ok 0, Except.ok 0] : RStream) =
      .error (.InvalidExtension .Bz2NotCompiled) ∧
    parse_blob noExtensions ([Except.ok 0, Except.ok 0, Except.ok 0,
        Except.ok 99, Except.ok 0, Except.ok 0] : RStream) =
      .error (.InvalidExtension (.InvalidCompressionSetting 99)) :=
  ⟨by simpa using claim_C7.1 noExtensions 2 [9, 8] [] rfl rfl (by omega),
   claim_C7.2.1 noExtensions rfl rfl,
   claim_C7.2.2.1 noExtensions rfl rfl,
   claim_C7.2.2.2 noExtensions 99 rfl (by omega) (by omega) (by omega)⟩

/-- C8: after the payload, the blob decoder skips exactly
`allocated_size - used_size` trailing bytes with saturating subtraction:
with `junk.length = a - u` trailing bytes present, the rest of the stream
is untouched, and nothing requires `u ≤ a` — when `used_size` exceeds
`allocated_size` zero bytes are skipped and the parse continues. -/
theorem claim_C8 (ft : Features) (a u : Nat) (payload junk : List Nat)
    (s : RStream) (hmd5 : ft.md5 = none) (ha : a ≤ 250) (hu : u ≤ 250)
    (hp : payload.length = u) (hj : junk.length = a - u) :
    parse_blob ft (Except.ok a :: Except.ok u :: Except.ok 0 :: Except.ok 0 ::
        Except.ok 0 :: Except.ok 0 ::
        (payload.map Except.ok ++ (junk.map Except.ok ++ s))) =
      .ok (payload, s) := by
  subst hp
  have hla : a < 251 := by omega
  have hlu : payload.length < 251 := by omega
  have hskip : List.drop (a - payload.length)
      (junk.map Except.ok ++ s) = s := by
    have hlen : (junk.map (Except.ok : Nat → Except IOError Nat)).length =
        a - payload.length := by
      simpa using hj
    rw [← hlen, List.drop_left]
  simp [parse_blob, parse_size_inline, hla, hlu, pnext, CHECKSUM_SET,
    skip_bytes, takeCollect_exact, check_hash, hmd5, COMPRESSION_NOT_SET,
    hskip]

/-- Witness for C8 with `used_size` 3 exceeding `allocated_size` 1: the
saturating subtraction skips zero trailing bytes and the parse succeeds,
leaving the next byte unread. -/
theorem claim_C8_witness :
    parse_blob noExtensions
        ([Except.ok 1, Except.ok 3, Except.ok 0, Except.ok 0, Except.ok 0,
          Except.ok 0, Except.ok 5, Except.ok 6, Except.ok 7, Except.ok 9] :
          RStream) = .ok ([5, 6, 7], [Except.ok 9]) := by
  simpa using claim_C8 noExtensions 1 3 [5, 6, 7] [] [Except.ok 9] rfl
    (by omega) (by omega) rfl rfl

/-- C9: header validation fails with `MissingData` on fewer than 6 bytes,
with `InvalidHeader` when the first four bytes differ from the magic
`"BSDF"`, and otherwise records bytes 4–5 as a little-endian unsigned
16-bit version, consuming exactly 6 bytes and accepting any version
value. -/
theorem claim_C9 :
    (∀ bs : List Nat, bs.length < 6 →
      parse_header (bs.map Except.ok) = .error .MissingData) ∧
    (∀ bs : List Nat, 6 ≤ bs.length → bs.take 4 ≠ MAGIC →
      parse_header (bs.map Except.ok) = .error .InvalidHeader) ∧
    (∀ v₁ v₂ (rest : RStream), v₁ < 256 → v₂ < 256 →
      parse_header ([Except.ok 66, Except.ok 83, Except.ok 68, Except.ok 70,
          Except.ok v₁, Except.ok v₂] ++ rest) = .ok (v₁ + 256 * v₂, rest)) := by
  refine ⟨?_, ?_, ?_⟩
  · intro bs h
    have hlen : (bs.take 6).length ≠ 6 := by
      simp only [List.length_take]; omega
    simp only [parse_header, takeCollect_all_ok]
    rw [if_pos hlen]
  · intro bs h₆ hmagic
    have hlen : (bs.take 6).length = 6 := by
      simp only [List.length_take]; omega
    have htake : (bs.take 6).take 4 = bs.take 4 := by
      simp [List.take_take]
    simp only [parse_header, takeCollect_all_ok]
    rw [if_neg (by simp [hlen]), if_pos (by simpa [htake] using hmagic)]
  · intro v₁ v₂ rest h₁ h₂
    simp [parse_header, takeCollect, MAGIC, leValue]

/-- Witness for C9: a stream of 3 bytes fails with `MissingData`, a 6-byte
stream with wrong magic fails with `InvalidHeader`, and the version bytes
4, 2 after `"BSDF"` decode to version 516 with nothing left unread. -/
theorem claim_C9_witness :
    parse_header (([1, 2, 3].map Except.ok : RStream)) = .error .MissingData ∧
    parse_header (([0, 0, 0, 0, 0, 0].map Except.ok : RStream)) =
      .error .InvalidHeader ∧
    parse_header (([66, 83, 68, 70, 4, 2].map Except.ok : RStream)) =
      .ok (516, []) :=
  ⟨claim_C9.1 [1, 2, 3] (by simp),
   claim_C9.2.1 [0, 0, 0, 0, 0, 0] (by simp) (by simp [MAGIC]),
   by simpa using claim_C9.2.2 4 2 [] (by omega) (by omega)⟩

/-- C10 counterexample: two `InvalidExtension` errors whose inner sub-kind
matches (both are `InvalidCompressionSetting`) but which `errorEq`
distinguishes, because the derived equality on the inner value also
compares the offending byte (3 versus 4). -/
theorem claim_C10_counterexample :
    invalidExtensionSubKind (.InvalidCompressionSetting 3) =
      invalidExtensionSubKind (.InvalidCompressionSetting 4) ∧
    errorEq (.InvalidExtension (.InvalidCompressionSetting 3))
      (.InvalidExtension (.InvalidCompressionSetting 4)) = false :=
  ⟨rfl, rfl⟩

/-- C10 as amended: two `Reader` errors are equal exactly when their I/O
kind matches, regardless of message; two `InvalidExtension` errors are
equal exactly when their inner values are equal (sub-kind and, for
`InvalidCompressionSetting`, also the offending byte); every other variant
is equal exactly to itself. -/
theorem claim_C10 :
    (∀ k₁ m₁ k₂ m₂,
      (errorEq (.Reader ⟨k₁, m₁⟩) (.Reader ⟨k₂, m₂⟩) = true ↔ k₁ = k₂)) ∧
    (∀ e f,
      (errorEq (.InvalidExtension e) (.InvalidExtension f) = true ↔ e = f)) ∧
    (∀ y, (errorEq .MissingData y = true ↔ y = .MissingData) ∧
      (errorEq .InvalidHeader y = true ↔ y = .InvalidHeader) ∧
      (errorEq .Eof y = true ↔ y = .Eof) ∧
      (errorEq .InvalidSize y = true ↔ y = .InvalidSize) ∧
      (errorEq .InvalidUtf8 y = true ↔ y = .InvalidUtf8) ∧
      (errorEq .InvalidBlobHash y = true ↔ y = .InvalidBlobHash)) := by
  refine ⟨?_, ?_, ?_⟩
  · intro k₁ m₁ k₂ m₂
    simp [errorEq]
  · intro e f
    cases e <;> cases f <;> simp [errorEq, invalidExtensionEq]
  · intro y
    cases y <;> simp [errorEq]

end Bsdf
